import Mathlib

/-!
Verification of the column-tree navigation core of the AI-Steps app
(`src/App.tsx`), shallowly embedded in Lean.

The embedding follows `App.tsx` closely:

* `ColumnData`, `StepItem` mirror the interfaces in `src/types.ts`.
* Column identities: the source uses the literal string `'root'` for the
  seed column and the template string `col-${Date.now()}` (App.tsx:105 and
  App.tsx:163) for generated columns.  This encoding is injective — the two
  shapes never coincide and two template strings are equal exactly when the
  millisecond timestamps are — so we model it with the inductive `ColId`,
  whose `gen t` constructor carries the `Date.now()` value.
* Step identities use the template `${columnId}-step-${i}` (App.tsx:131 and
  App.tsx:190), again an injective pairing of owning column and index,
  modelled by the structure `StepId`.
* The asynchronous handlers `handleAsk` and `handleStepClick` are split at
  their single `await` into their synchronous segments: the optimistic
  start (`handleAskStart`, `handleStepClickStart`), the success resolution
  (`handleResolve`, identical code in both handlers), and the failure /
  null-result restoration (`handleAskFail`, `handleStepClickFail`).  The
  `Date.now()` read and the `window.innerWidth < 768` test are passed in as
  parameters, and the `newColumns` array captured by `handleStepClick`'s
  closure is the explicit `captured` argument of `handleStepClickFail`.
-/

namespace AISteps

/-- Column identity.  `root` is the literal id `'root'` of the seed column;
`gen t` is the id `col-${t}` produced from `Date.now() = t`
(App.tsx:105, App.tsx:163). -/
inductive ColId where
  | root
  | gen (t : Nat)
deriving DecidableEq, Repr

/-- Step identity: the source string `${colId}-step-${i}` (App.tsx:131,
App.tsx:190), an injective pairing of the owning column id and the index. -/
structure StepId where
  col : ColId
  idx : Nat
deriving DecidableEq, Repr

/-- `StepItem` from `src/types.ts` (the optional `iconType` is never set or
read by the navigation core and is omitted). -/
structure StepItem where
  id : StepId
  title : String
  description : String
deriving DecidableEq, Repr

/-- The `type` field of `ColumnData`: `'input' | 'list'`. -/
inductive ColumnType where
  | input
  | list
deriving DecidableEq, Repr

/-- `ColumnData` from `src/types.ts`. -/
structure ColumnData where
  id : ColId
  parentId : Option ColId
  parentStepId : Option StepId := none
  title : String
  steps : List StepItem
  isLoading : Bool
  type : ColumnType
deriving DecidableEq, Repr

/-- The keyboard focus cursor `{ colIndex, stepIndex }` (App.tsx:27).
`stepIndex` is `-1` on the input column, hence an integer. -/
structure Focus where
  colIndex : Nat
  stepIndex : Int
deriving DecidableEq, Repr

/-- The App component's state (App.tsx:18-27): the column sequence, the
selection map `Record<string, string>` (modelled as an association list in
object-key insertion order), the mobile visible index and the keyboard
focus cursor. -/
structure AppState where
  columns : List ColumnData
  selectedStepIds : List (ColId × StepId)
  mobileColIndex : Nat
  keyboardFocus : Option Focus
deriving DecidableEq, Repr

/-- `INITIAL_COLUMN` (App.tsx:8-15). -/
def INITIAL_COLUMN : ColumnData :=
  { id := .root, parentId := none, parentStepId := none, title := "Start",
    steps := [], isLoading := false, type := .input }

/-- The initial state (App.tsx:18, 19, 23, 27). -/
def initState : AppState :=
  { columns := [INITIAL_COLUMN], selectedStepIds := [], mobileColIndex := 0,
    keyboardFocus := none }

/-- JS object spread update `{ ...prev, [k]: v }` (App.tsx:157): overwrite
the value of an existing key in place, otherwise append the new binding. -/
def setSelected (m : List (ColId × StepId)) (k : ColId) (v : StepId) :
    List (ColId × StepId) :=
  if m.any (fun p => p.1 = k) then
    m.map (fun p => if p.1 = k then (k, v) else p)
  else m ++ [(k, v)]

/-- A raw generated step as returned by the generation service
(`GemniResponseSchema.steps` entries in `src/types.ts`). -/
structure RawStep where
  title : String
  description : String
deriving DecidableEq, Repr

/-- `result.steps.map((s, i) => ({ id: `${colId}-step-${i}`, ... }))`
(App.tsx:130-134 and App.tsx:189-193), with the running index made explicit
as the `i` argument. -/
def mkStepsFrom (colId : ColId) (i : Nat) : List RawStep → List StepItem
  | [] => []
  | r :: rs =>
    { id := ⟨colId, i⟩, title := r.title, description := r.description } ::
      mkStepsFrom colId (i + 1) rs

/-- The generated steps of a resolved column, indexed from 0. -/
def mkSteps (colId : ColId) (raw : List RawStep) : List StepItem :=
  mkStepsFrom colId 0 raw

/-- The loading column created by `handleAsk` (App.tsx:106-113); `t` is the
`Date.now()` read at App.tsx:105. -/
def loadingAskCol (t : Nat) (prompt : String) : ColumnData :=
  { id := .gen t, parentId := some .root, parentStepId := none,
    title := prompt, steps := [], isLoading := true, type := .list }

/-- The synchronous segment of `handleAsk` before the `await`
(App.tsx:103-123): set the sequence to `[INITIAL_COLUMN, loadingCol]`, move
the mobile index to 1 and the keyboard focus to `{colIndex: 1, stepIndex: -1}`. -/
def handleAskStart (prompt : String) (t : Nat) (s : AppState) : AppState :=
  { s with columns := [INITIAL_COLUMN, loadingAskCol t prompt],
           mobileColIndex := 1,
           keyboardFocus := some ⟨1, -1⟩ }

/-- `prev.map(c => c.id === colId ? { ...c, isLoading: false, steps } : c)`
(App.tsx:136-138, identically App.tsx:195-197). -/
def resolveColumns (colId : ColId) (steps : List StepItem)
    (cols : List ColumnData) : List ColumnData :=
  cols.map (fun c =>
    if c.id = colId then { c with isLoading := false, steps := steps } else c)

/-- The success path of either handler: build the step items from the raw
response and patch the column with the request's id in place. -/
def handleResolve (colId : ColId) (raw : List RawStep) (s : AppState) :
    AppState :=
  { s with columns := resolveColumns colId (mkSteps colId raw) s.columns }

/-- The `handleAsk` failure / null-result restoration
(`setColumns([INITIAL_COLUMN])`, App.tsx:141 and App.tsx:146).  The thrown
error is rethrown at App.tsx:147; no other state field is touched. -/
def handleAskFail (s : AppState) : AppState :=
  { s with columns := [INITIAL_COLUMN] }

/-- `columns.findIndex(c => c.id === columnId)` (App.tsx:153); the JS result
`-1` is rendered as `none`, matching the immediate `=== -1` early return. -/
def findColIndex (columnId : ColId) : List ColumnData → Option Nat
  | [] => none
  | c :: cs =>
    if c.id = columnId then some 0 else (findColIndex columnId cs).map (· + 1)

/-- The loading column created by `handleStepClick` (App.tsx:163-172); `t`
is the `Date.now()` read at App.tsx:163. -/
def loadingStepCol (t : Nat) (columnId : ColId) (step : StepItem) : ColumnData :=
  { id := .gen t, parentId := some columnId, parentStepId := some step.id,
    title := step.title, steps := [], isLoading := true, type := .list }

/-- The synchronous segment of `handleStepClick` before the `await`
(App.tsx:151-182): locate the clicked column, and if absent return with no
state change; otherwise record the selection, truncate to the clicked
column and append one loading column, and on a narrow viewport
(`window.innerWidth < 768`, passed as `isMobile`) move the mobile index to
the new column's position. -/
def handleStepClickStart (columnId : ColId) (step : StepItem) (t : Nat)
    (isMobile : Bool) (s : AppState) : AppState :=
  match findColIndex columnId s.columns with
  | none => s
  | some colIndex =>
    { s with
      selectedStepIds := setSelected s.selectedStepIds columnId step.id,
      columns := s.columns.take (colIndex + 1) ++ [loadingStepCol t columnId step],
      mobileColIndex := if isMobile then colIndex + 1 else s.mobileColIndex }

/-- The `handleStepClick` failure / null-result restoration
(`setColumns(newColumns)`, App.tsx:199 and App.tsx:203): the sequence is
set to the `newColumns` array captured by the closure when the request was
fired, with no check that the loading column is still present.  The thrown
error is rethrown at App.tsx:204. -/
def handleStepClickFail (captured : List ColumnData) (s : AppState) : AppState :=
  { s with columns := captured }

/-- `resetApp` (App.tsx:222-227). -/
def resetApp (_s : AppState) : AppState :=
  { columns := [INITIAL_COLUMN], selectedStepIds := [], mobileColIndex := 0,
    keyboardFocus := none }

/-- The mobile (narrow-viewport) branch of `handleNav` (App.tsx:243-249). -/
inductive NavDir where
  | left
  | right
deriving DecidableEq, Repr

/-- `handleNav` on a narrow viewport (App.tsx:243-249). -/
def handleNavMobile (dir : NavDir) (s : AppState) : AppState :=
  match dir with
  | .left =>
    if 0 < s.mobileColIndex then { s with mobileColIndex := s.mobileColIndex - 1 }
    else s
  | .right =>
    if s.mobileColIndex < s.columns.length - 1 then
      { s with mobileColIndex := s.mobileColIndex + 1 }
    else s

/-- The mobile render's column dereference `columns[mobileColIndex]`
(App.tsx:364, also 367-368); `none` is JS `undefined`, on which the
`Column` component immediately crashes reading `data.isLoading`. -/
def mobileColumn (s : AppState) : Option ColumnData :=
  s.columns[s.mobileColIndex]?

/-- The focus highlight handed to the column at `index` by the desktop
render (App.tsx:330 `isActive = keyboardFocus?.colIndex === index` and
App.tsx:349 `focusedStepIndex = isActive ? keyboardFocus?.stepIndex :
undefined`).  The render only reads `keyboardFocus`; no clamping or other
write of the cursor occurs anywhere in the render path. -/
def focusedStepIndexAt (s : AppState) (index : Nat) : Option Int :=
  match s.keyboardFocus with
  | some f => if f.colIndex = index then some f.stepIndex else none
  | none => none

/-- The effect of one `keydown` dispatch (App.tsx:49-94): the focus value
stored by the updater, plus the step click the `Enter` branch fires
through `handleStepClick(columns[colIndex].id, step)` (App.tsx:85). -/
structure KeyEffect where
  focus : Option Focus
  click : Option (ColId × StepItem)
deriving DecidableEq, Repr

instance {ε α : Type} [DecidableEq ε] [DecidableEq α] :
    DecidableEq (Except ε α)
  | .ok x, .ok y =>
    if h : x = y then isTrue (by rw [h])
    else isFalse (fun hc => h (Except.ok.inj hc))
  | .error x, .error y =>
    if h : x = y then isTrue (by rw [h])
    else isFalse (fun hc => h (Except.error.inj hc))
  | .ok _, .error _ => isFalse (fun hc => Except.noConfusion hc)
  | .error _, .ok _ => isFalse (fun hc => Except.noConfusion hc)

/-- `handleKeyDown` (App.tsx:34-95) for events whose target is not a text
input, split on `e.key`.  `error ()` marks the JS `TypeError` thrown when
`columns[colIndex]` is `undefined` and `.steps` is read (App.tsx:71,
App.tsx:82); every other path is total.  When `columns` is empty the
listener returns before touching the focus (App.tsx:47). -/
def handleKeyDown (columns : List ColumnData) (prev : Option Focus)
    (key : String) : Except Unit KeyEffect :=
  if columns.length = 0 then .ok ⟨prev, none⟩
  else
    let current : Focus := prev.getD ⟨0, -1⟩
    if key = "ArrowRight" then
      if current.colIndex < columns.length - 1 then
        .ok ⟨some ⟨current.colIndex + 1, 0⟩, none⟩
      else .ok ⟨some current, none⟩
    else if key = "ArrowLeft" then
      if 0 < current.colIndex then
        .ok ⟨some ⟨current.colIndex - 1,
               if current.colIndex - 1 = 0 then -1 else 0⟩, none⟩
      else .ok ⟨some current, none⟩
    else if key = "ArrowDown" then
      if 0 < current.colIndex then
        match columns[current.colIndex]? with
        | none => .error ()
        | some col =>
          if current.stepIndex < (col.steps.length : Int) - 1 then
            .ok ⟨some ⟨current.colIndex, current.stepIndex + 1⟩, none⟩
          else .ok ⟨some current, none⟩
      else .ok ⟨some current, none⟩
    else if key = "ArrowUp" then
      if 0 < current.colIndex then
        if 0 < current.stepIndex then
          .ok ⟨some ⟨current.colIndex, current.stepIndex - 1⟩, none⟩
        else .ok ⟨some current, none⟩
      else .ok ⟨some current, none⟩
    else if key = "Enter" then
      if 0 < current.colIndex ∧ 0 ≤ current.stepIndex then
        match columns[current.colIndex]? with
        | none => .error ()
        | some col =>
          match col.steps[current.stepIndex.toNat]? with
          | some step => .ok ⟨some current, some (col.id, step)⟩
          | none => .ok ⟨some current, none⟩
      else .ok ⟨some current, none⟩
    else .ok ⟨some current, none⟩

/-- An in-flight generation request, tagged with the identity of the
loading column it was fired for.  A `handleStepClick` request additionally
carries the `newColumns` array its closure captured (App.tsx:160), which
its failure branch restores. -/
inductive Pending where
  | ask (id : ColId)
  | step (id : ColId) (captured : List ColumnData)
deriving DecidableEq, Repr

/-- The column identity a pending request would resolve against. -/
def Pending.colId : Pending → ColId
  | .ask id => id
  | .step id _ => id

/-- The state restoration performed by a request's failure / null-result
branch (App.tsx:141/146 for `handleAsk`, App.tsx:199/203 for
`handleStepClick`). -/
def Pending.failEffect : Pending → AppState → AppState
  | .ask _, s => handleAskFail s
  | .step _ captured, s => handleStepClickFail captured s

/-- The component state together with the set of in-flight requests. -/
structure Sys where
  app : AppState
  pending : List Pending
deriving DecidableEq, Repr

/-- The startup state: the seeded root column and no request in flight. -/
def initSys : Sys := ⟨initState, []⟩

/-- The states reachable by interleaving the synchronous segments of the
source's handlers: submitting a prompt, clicking (or `Enter`-selecting) a
step, a response resolving, a request failing (or returning null), and the
Clear action.  The single-threaded event loop runs each segment atomically;
a resolution or failure consumes exactly the pending request it belongs
to. -/
inductive Reachable : Sys → Prop where
  | init : Reachable initSys
  | ask (prompt : String) (t : Nat) (s : Sys) : Reachable s →
      Reachable ⟨handleAskStart prompt t s.app, .ask (.gen t) :: s.pending⟩
  | clickHit (columnId : ColId) (step : StepItem) (t : Nat) (m : Bool)
      (s : Sys) (i : Nat) : Reachable s →
      findColIndex columnId s.app.columns = some i →
      Reachable ⟨handleStepClickStart columnId step t m s.app,
        .step (.gen t) (s.app.columns.take (i + 1)) :: s.pending⟩
  | clickMiss (columnId : ColId) (step : StepItem) (t : Nat) (m : Bool)
      (s : Sys) : Reachable s →
      findColIndex columnId s.app.columns = none →
      Reachable ⟨handleStepClickStart columnId step t m s.app, s.pending⟩
  | resolve (p : Pending) (raw : List RawStep) (s : Sys)
      (p₁ p₂ : List Pending) : Reachable s → s.pending = p₁ ++ p :: p₂ →
      Reachable ⟨handleResolve p.colId raw s.app, p₁ ++ p₂⟩
  | fail (p : Pending) (s : Sys) (p₁ p₂ : List Pending) : Reachable s →
      s.pending = p₁ ++ p :: p₂ →
      Reachable ⟨p.failEffect s.app, p₁ ++ p₂⟩
  | reset (s : Sys) : Reachable s → Reachable ⟨resetApp s.app, s.pending⟩

/-- The column sequence forms the materialized single path: element 0 is
the seeded root input column and each later element's `parentId` is the
identity of its predecessor. -/
def IsPath (cols : List ColumnData) : Prop :=
  cols.head? = some INITIAL_COLUMN ∧
  List.Chain' (fun a b => b.parentId = some a.id) cols

instance (cols : List ColumnData) : Decidable (IsPath cols) :=
  inferInstanceAs (Decidable (And _ _))

/-- The invariant carried through the reachability induction: the live
sequence is a path, and every in-flight request has a generated (non-root)
identity and, for a step request, a captured sequence that is itself a
path. -/
def PendingOK : Pending → Prop
  | .ask id => ∃ t, id = ColId.gen t
  | .step id captured => (∃ t, id = ColId.gen t) ∧ IsPath captured

def SysInv (s : Sys) : Prop :=
  IsPath s.app.columns ∧ ∀ p ∈ s.pending, PendingOK p

theorem isPath_initial : IsPath [INITIAL_COLUMN] := by
  constructor <;> simp [List.chain'_singleton]

theorem isPath_ask (t : Nat) (prompt : String) :
    IsPath [INITIAL_COLUMN, loadingAskCol t prompt] := by
  refine ⟨rfl, ?_⟩
  rw [List.chain'_cons]
  exact ⟨rfl, List.chain'_singleton _⟩

theorem resolve_patch_id (colId : ColId) (steps : List StepItem)
    (c : ColumnData) :
    (if c.id = colId then { c with isLoading := false, steps := steps }
     else c).id = c.id := by
  split <;> rfl

theorem resolve_patch_parentId (colId : ColId) (steps : List StepItem)
    (c : ColumnData) :
    (if c.id = colId then { c with isLoading := false, steps := steps }
     else c).parentId = c.parentId := by
  split <;> rfl

theorem isPath_resolve (t : Nat) (steps : List StepItem)
    (cols : List ColumnData) (h : IsPath cols) :
    IsPath (resolveColumns (ColId.gen t) steps cols) := by
  obtain ⟨hhead, hchain⟩ := h
  unfold resolveColumns
  constructor
  · rw [List.head?_map _ cols, hhead]
    simp [INITIAL_COLUMN]
  · rw [List.chain'_map]
    refine hchain.imp (fun a b hab => ?_)
    rw [resolve_patch_parentId, resolve_patch_id, hab]

theorem isPath_take (cols : List ColumnData) (i : Nat) (h : IsPath cols) :
    IsPath (cols.take (i + 1)) := by
  obtain ⟨hhead, hchain⟩ := h
  refine ⟨?_, hchain.take (i + 1)⟩
  cases cols with
  | nil => simp at hhead
  | cons c cs => rw [List.take_succ_cons, List.head?_cons] at *; exact hhead

theorem findColIndex_lt_length (columnId : ColId) :
    ∀ (cols : List ColumnData) (i : Nat),
      findColIndex columnId cols = some i → i < cols.length := by
  intro cols
  induction cols with
  | nil => intro i h; simp [findColIndex] at h
  | cons c cs ih =>
    intro i h
    rw [findColIndex] at h
    by_cases hc : c.id = columnId
    · rw [if_pos hc] at h
      cases h
      simp
    · rw [if_neg hc] at h
      cases hfind : findColIndex columnId cs with
      | none => rw [hfind] at h; simp at h
      | some j =>
        rw [hfind] at h
        simp only [Option.map_some'] at h
        cases h
        have := ih j hfind
        simpa using this

theorem findColIndex_get (columnId : ColId) :
    ∀ (cols : List ColumnData) (i : Nat),
      findColIndex columnId cols = some i →
      ∃ c, cols[i]? = some c ∧ c.id = columnId := by
  intro cols
  induction cols with
  | nil => intro i h; simp [findColIndex] at h
  | cons c cs ih =>
    intro i h
    rw [findColIndex] at h
    by_cases hc : c.id = columnId
    · rw [if_pos hc] at h
      cases h
      exact ⟨c, by simp, hc⟩
    · rw [if_neg hc] at h
      cases hfind : findColIndex columnId cs with
      | none => rw [hfind] at h; simp at h
      | some j =>
        rw [hfind] at h
        simp only [Option.map_some'] at h
        cases h
        obtain ⟨d, hd, hdid⟩ := ih j hfind
        exact ⟨d, by rw [List.getElem?_cons_succ]; exact hd, hdid⟩

theorem findColIndex_none (columnId : ColId) :
    ∀ cols : List ColumnData,
      findColIndex columnId cols = none → ∀ c ∈ cols, c.id ≠ columnId := by
  intro cols
  induction cols with
  | nil => intro _ c hc; simp at hc
  | cons c cs ih =>
    intro h d hd
    rw [findColIndex] at h
    by_cases hc : c.id = columnId
    · rw [if_pos hc] at h; simp at h
    · rw [if_neg hc] at h
      rcases List.mem_cons.mp hd with rfl | hmem
      · exact hc
      · cases hfind : findColIndex columnId cs with
        | none => exact ih hfind d hmem
        | some j => rw [hfind] at h; simp at h

theorem getLast?_take_succ {α : Type} :
    ∀ (cols : List α) (i : Nat), i < cols.length →
      (cols.take (i + 1)).getLast? = cols[i]? := by
  intro cols
  induction cols with
  | nil => intro i h; simp at h
  | cons c cs ih =>
    intro i h
    cases i with
    | zero => simp
    | succ j =>
      have hj : j < cs.length := by simpa using h
      cases cs with
      | nil => simp at hj
      | cons d ds =>
        rw [List.take_succ_cons, List.take_succ_cons, List.getLast?_cons_cons,
          ← List.take_succ_cons, ih j hj, List.getElem?_cons_succ]

theorem isPath_click (cols : List ColumnData) (columnId : ColId)
    (step : StepItem) (t : Nat) (i : Nat) (h : IsPath cols)
    (hf : findColIndex columnId cols = some i) :
    IsPath (cols.take (i + 1) ++ [loadingStepCol t columnId step]) := by
  obtain ⟨htake_head, htake_chain⟩ := isPath_take cols i h
  constructor
  · rw [List.head?_append_of_ne_nil]
    · exact htake_head
    · intro hnil
      rw [hnil] at htake_head
      simp at htake_head
  · rw [List.chain'_append]
    refine ⟨htake_chain, List.chain'_singleton _, ?_⟩
    intro x hx y hy
    obtain ⟨c, hc, hcid⟩ := findColIndex_get columnId cols i hf
    rw [getLast?_take_succ cols i (findColIndex_lt_length columnId cols i hf),
      hc] at hx
    simp only [Option.mem_def, Option.some_inj] at hx
    simp only [List.head?_cons, Option.mem_def, Option.some_inj] at hy
    subst hx
    subst hy
    rw [loadingStepCol, hcid]

/-- Every reachable extended state satisfies the carried invariant. -/
theorem reachable_sysInv (s : Sys) (h : Reachable s) : SysInv s := by
  induction h with
  | init =>
    exact ⟨isPath_initial, by simp [initSys]⟩
  | ask prompt t s _ ih =>
    refine ⟨isPath_ask t prompt, ?_⟩
    intro p hp
    rcases List.mem_cons.mp hp with rfl | hmem
    · exact ⟨t, rfl⟩
    · exact ih.2 p hmem
  | clickHit columnId step t m s i _ hfind ih =>
    constructor
    · show IsPath (handleStepClickStart columnId step t m s.app).columns
      rw [handleStepClickStart, hfind]
      exact isPath_click s.app.columns columnId step t i ih.1 hfind
    · intro p hp
      rcases List.mem_cons.mp hp with rfl | hmem
      · exact ⟨⟨t, rfl⟩, isPath_take s.app.columns i ih.1⟩
      · exact ih.2 p hmem
  | clickMiss columnId step t m s _ hfind ih =>
    constructor
    · show IsPath (handleStepClickStart columnId step t m s.app).columns
      rw [handleStepClickStart, hfind]
      exact ih.1
    · exact ih.2
  | resolve p raw s p₁ p₂ _ hpend ih =>
    constructor
    · have hp : PendingOK p := ih.2 p (by rw [hpend]; simp)
      have : ∃ t, p.colId = ColId.gen t := by
        cases p with
        | ask id => exact hp
        | step id captured => exact hp.1
      obtain ⟨t, ht⟩ := this
      show IsPath (handleResolve p.colId raw s.app).columns
      rw [handleResolve, ht]
      exact isPath_resolve t _ s.app.columns ih.1
    · intro q hq
      exact ih.2 q (by rw [hpend]; rcases List.mem_append.mp hq with h | h
                       · exact List.mem_append.mpr (Or.inl h)
                       · exact List.mem_append.mpr (Or.inr (List.mem_cons_of_mem _ h)))
  | fail p s p₁ p₂ _ hpend ih =>
    constructor
    · have hp : PendingOK p := ih.2 p (by rw [hpend]; simp)
      cases p with
      | ask id => exact isPath_initial
      | step id captured => exact hp.2
    · intro q hq
      exact ih.2 q (by rw [hpend]; rcases List.mem_append.mp hq with h | h
                       · exact List.mem_append.mpr (Or.inl h)
                       · exact List.mem_append.mpr (Or.inr (List.mem_cons_of_mem _ h)))
  | reset s _ ih =>
    exact ⟨isPath_initial, ih.2⟩

theorem resolveColumns_eq_self (colId : ColId) (steps : List StepItem) :
    ∀ cols : List ColumnData, (∀ c ∈ cols, c.id ≠ colId) →
      resolveColumns colId steps cols = cols := by
  intro cols
  induction cols with
  | nil => intro _; rfl
  | cons c cs ih =>
    intro h
    show (if c.id = colId then _ else c) :: resolveColumns colId steps cs = c :: cs
    rw [if_neg (h c (List.mem_cons_self c cs)),
      ih (fun d hd => h d (List.mem_cons_of_mem c hd))]

/-- C1: a generation response carrying a column identity that is no longer
present in the sequence is a complete no-op: the resolution `prev.map(c =>
c.id === id ? patch : c)` leaves the column sequence — and the rest of the
state: selection map, focus cursor, mobile index — unchanged, so a stale
response can never resolve a same-titled or same-position column whose
identity differs. -/
theorem handleResolve_stale_is_noop (colId : ColId) (raw : List RawStep)
    (s : AppState) (h : ∀ c ∈ s.columns, c.id ≠ colId) :
    handleResolve colId raw s = s := by
  cases s with
  | mk columns sel mob focus =>
    show AppState.mk (resolveColumns colId _ columns) sel mob focus = _
    rw [resolveColumns_eq_self colId _ columns h]

/-- A state holding the root column and one in-flight ask column `gen 1`;
the identity `gen 2` is absent from it. -/
def w1_state : AppState := handleAskStart "bake a cake" 1 initState

theorem handleResolve_stale_is_noop_witness :
    (∀ c ∈ w1_state.columns, c.id ≠ ColId.gen 2) ∧
    handleResolve (ColId.gen 2) [⟨"mix", "mix the batter"⟩] w1_state = w1_state :=
  ⟨by decide,
   handleResolve_stale_is_noop (ColId.gen 2) [⟨"mix", "mix the batter"⟩]
     w1_state (by decide)⟩

/-- C2: `handleStepClick` on a column found at index `i` truncates the
sequence to the first `i + 1` columns and appends exactly one new loading
column with `parentId = columnId`, `parentStepId = step.id`,
`title = step.title`, empty steps, `isLoading = true` and kind `list`;
when the identity is not found (`findIndex` returns `-1`) the handler
returns before performing any state change. -/
theorem handleStepClick_spec (columnId : ColId) (step : StepItem) (t : Nat)
    (isMobile : Bool) (s : AppState) :
    (∀ i, findColIndex columnId s.columns = some i →
      (handleStepClickStart columnId step t isMobile s).columns =
        s.columns.take (i + 1) ++
          [{ id := ColId.gen t, parentId := some columnId,
             parentStepId := some step.id, title := step.title, steps := [],
             isLoading := true, type := ColumnType.list }]) ∧
    (findColIndex columnId s.columns = none →
      handleStepClickStart columnId step t isMobile s = s) := by
  constructor
  · intro i hi
    simp only [handleStepClickStart, hi]
    rfl
  · intro hnone
    simp only [handleStepClickStart, hnone]

/-- A state `[root, resolved list column gen 1]` with one generated step. -/
def w2_state : AppState :=
  handleResolve (ColId.gen 1) [⟨"buy a cake", "from the bakery"⟩]
    (handleAskStart "plan a party" 1 initState)

def w2_step : StepItem :=
  ⟨⟨ColId.gen 1, 0⟩, "buy a cake", "from the bakery"⟩

theorem handleStepClick_spec_witness :
    (handleStepClickStart (ColId.gen 1) w2_step 2 false w2_state).columns =
      w2_state.columns.take (1 + 1) ++
        [{ id := ColId.gen 2, parentId := some (ColId.gen 1),
           parentStepId := some w2_step.id, title := w2_step.title,
           steps := [], isLoading := true, type := ColumnType.list }] :=
  (handleStepClick_spec (ColId.gen 1) w2_step 2 false w2_state).1 1 (by decide)

/-- C3: in every reachable state the column sequence is a single unbranched
path — element 0 is the seeded root input column and each later element's
`parentId` is the identity of its predecessor — and a step selection on the
column found at index `i` always yields a sequence of length `i + 2`. -/
theorem reachable_single_path_invariant (s : Sys) (h : Reachable s) :
    s.app.columns.head? = some INITIAL_COLUMN ∧
    List.Chain' (fun a b => b.parentId = some a.id) s.app.columns ∧
    ∀ (columnId : ColId) (step : StepItem) (t : Nat) (m : Bool) (i : Nat),
      findColIndex columnId s.app.columns = some i →
      (handleStepClickStart columnId step t m s.app).columns.length = i + 2 := by
  obtain ⟨⟨hhead, hchain⟩, _⟩ := reachable_sysInv s h
  refine ⟨hhead, hchain, ?_⟩
  intro columnId step t m i hfind
  have hlt : i < s.app.columns.length :=
    findColIndex_lt_length columnId s.app.columns i hfind
  simp only [handleStepClickStart, hfind]
  show (s.app.columns.take (i + 1) ++ [loadingStepCol t columnId step]).length = i + 2
  rw [List.length_append, List.length_take]
  simp only [List.length_singleton]
  omega

/-- A concrete three-column reachable state: submit a prompt at `t = 1`,
resolve it with one step, then select that step at `t = 2`. -/
def w3_raw : RawStep := ⟨"buy a cake", "from the bakery"⟩

def w3_step : StepItem := ⟨⟨ColId.gen 1, 0⟩, "buy a cake", "from the bakery"⟩

def w3_s1 : Sys :=
  ⟨handleAskStart "plan a party" 1 initSys.app,
   Pending.ask (ColId.gen 1) :: initSys.pending⟩

def w3_s2 : Sys :=
  ⟨handleResolve (Pending.ask (ColId.gen 1)).colId [w3_raw] w3_s1.app,
   ([] : List Pending) ++ []⟩

def w3_sys : Sys :=
  ⟨handleStepClickStart (ColId.gen 1) w3_step 2 false w3_s2.app,
   Pending.step (ColId.gen 2) (w3_s2.app.columns.take (1 + 1)) :: w3_s2.pending⟩

theorem reachable_single_path_invariant_witness :
    w3_sys.app.columns.head? = some INITIAL_COLUMN ∧
    List.Chain' (fun a b => b.parentId = some a.id) w3_sys.app.columns :=
  have hr : Reachable w3_sys :=
    Reachable.clickHit (ColId.gen 1) w3_step 2 false w3_s2 1
      (Reachable.resolve (Pending.ask (ColId.gen 1)) [w3_raw] w3_s1 [] []
        (Reachable.ask "plan a party" 1 initSys Reachable.init) rfl)
      (by decide)
  ⟨(reachable_single_path_invariant w3_sys hr).1,
   (reachable_single_path_invariant w3_sys hr).2.1⟩

/-- C10: the Clear action restores, from any state whatsoever, the
length-one sequence holding only the root input column, an empty selection
map, an absent focus cursor (and mobile index 0). -/
theorem resetApp_spec (s : AppState) :
    (resetApp s).columns = [INITIAL_COLUMN] ∧
    (resetApp s).columns.length = 1 ∧
    (resetApp s).selectedStepIds = [] ∧
    (resetApp s).keyboardFocus = none ∧
    (resetApp s).mobileColIndex = 0 :=
  ⟨rfl, rfl, rfl, rfl, rfl⟩

theorem mkStepsFrom_length (colId : ColId) :
    ∀ (i : Nat) (raw : List RawStep),
      (mkStepsFrom colId i raw).length = raw.length := by
  intro i raw
  induction raw generalizing i with
  | nil => rfl
  | cons r rs ih => simp [mkStepsFrom, ih]

theorem mkStepsFrom_getElem? (colId : ColId) :
    ∀ (raw : List RawStep) (i j : Nat),
      (mkStepsFrom colId i raw)[j]? = raw[j]?.map (fun r =>
        { id := ⟨colId, i + j⟩, title := r.title,
          description := r.description }) := by
  intro raw
  induction raw with
  | nil => intro i j; simp [mkStepsFrom]
  | cons r rs ih =>
    intro i j
    cases j with
    | zero => simp [mkStepsFrom]
    | succ k =>
      rw [mkStepsFrom, List.getElem?_cons_succ, List.getElem?_cons_succ, ih]
      have hik : i + 1 + k = i + (k + 1) := by omega
      rw [hik]

theorem mkSteps_getElem? (colId : ColId) (raw : List RawStep) (j : Nat) :
    (mkSteps colId raw)[j]? = raw[j]?.map (fun r =>
      { id := ⟨colId, j⟩, title := r.title, description := r.description }) := by
  rw [mkSteps, mkStepsFrom_getElem?]
  simp

/-- C5: with only the root column present, submitting a prompt replaces the
sequence by `[root, L]` with `L.parentId` the root's identity, `L.title`
the prompt, kind `list`, loading and empty; and a successful resolution
with `n` raw steps patches `L` in place to a non-loading column holding
exactly those `n` steps, the step at position `j` carrying the id
`${L.id}-step-${j}`, with the rest of the sequence unchanged. -/
theorem submitRoot_then_resolve_spec (prompt : String) (t : Nat)
    (raw : List RawStep) (s : AppState) (h : s.columns = [INITIAL_COLUMN]) :
    (handleAskStart prompt t s).columns =
      [INITIAL_COLUMN, loadingAskCol t prompt] ∧
    (loadingAskCol t prompt).parentId = some INITIAL_COLUMN.id ∧
    (loadingAskCol t prompt).title = prompt ∧
    (loadingAskCol t prompt).type = ColumnType.list ∧
    (loadingAskCol t prompt).isLoading = true ∧
    (loadingAskCol t prompt).steps = [] ∧
    (handleResolve (ColId.gen t) raw (handleAskStart prompt t s)).columns =
      [INITIAL_COLUMN,
       { (loadingAskCol t prompt) with
           isLoading := false, steps := mkSteps (ColId.gen t) raw }] ∧
    (mkSteps (ColId.gen t) raw).length = raw.length ∧
    ∀ j, (mkSteps (ColId.gen t) raw)[j]? = raw[j]?.map (fun r =>
      ({ id := ⟨ColId.gen t, j⟩, title := r.title,
         description := r.description } : StepItem)) := by
  refine ⟨rfl, rfl, rfl, rfl, rfl, rfl, ?_, mkStepsFrom_length _ 0 raw,
    fun j => mkSteps_getElem? (ColId.gen t) raw j⟩
  show resolveColumns (ColId.gen t) (mkSteps (ColId.gen t) raw)
      [INITIAL_COLUMN, loadingAskCol t prompt] = _
  rw [resolveColumns]
  simp only [List.map_cons, List.map_nil]
  rw [if_neg (by simp [INITIAL_COLUMN]),
    if_pos (show (loadingAskCol t prompt).id = ColId.gen t from rfl)]

/-- The six generated steps of the birthday-party scenario. -/
def w5_raw : List RawStep :=
  [⟨"Pick a date", "Choose a weekend."⟩, ⟨"Make a guest list", "Keep it short."⟩,
   ⟨"Buy a cake", "From the bakery."⟩, ⟨"Send invites", "A week ahead."⟩,
   ⟨"Decorate", "Balloons help."⟩, ⟨"Plan games", "Two or three."⟩]

theorem submitRoot_then_resolve_spec_witness :
    (handleAskStart "Plan a birthday party" 1 initState).columns =
      [INITIAL_COLUMN, loadingAskCol 1 "Plan a birthday party"] ∧
    (handleResolve (ColId.gen 1) w5_raw
        (handleAskStart "Plan a birthday party" 1 initState)).columns =
      [INITIAL_COLUMN,
       { (loadingAskCol 1 "Plan a birthday party") with
           isLoading := false, steps := mkSteps (ColId.gen 1) w5_raw }] ∧
    (mkSteps (ColId.gen 1) w5_raw).length = 6 :=
  have h := submitRoot_then_resolve_spec "Plan a birthday party" 1 w5_raw
    initState rfl
  ⟨h.1, h.2.2.2.2.2.2.1, by rw [h.2.2.2.2.2.2.2.1]; rfl⟩

/-- Reaching the C4 race: submit at `t = 1`, resolve with one step, click
the step at `t = 2` (column `gen 2` pending with its captured prefix), then
click the same step again at `t = 3`, superseding column `gen 2`. -/
def c4_stepA : StepItem := ⟨⟨ColId.gen 1, 0⟩, "step one", "do it"⟩

def c4_s2 : AppState :=
  handleResolve (ColId.gen 1) [⟨"step one", "do it"⟩]
    (handleAskStart "plan" 1 initState)

def c4_captured : List ColumnData := c4_s2.columns.take (1 + 1)

def c4_s3 : AppState := handleStepClickStart (ColId.gen 1) c4_stepA 2 false c4_s2

def c4_s4 : AppState := handleStepClickStart (ColId.gen 1) c4_stepA 3 false c4_s3

/-- C4 counterexample: in the reachable state `c4_s4 = [root, gen 1, gen 3]`
the column `gen 2` is no longer present, yet the failure branch of the
request that created `gen 2` (`setColumns(newColumns)`, App.tsx:203) does
not leave the sequence unchanged — it overwrites it with the stale captured
prefix `[root, gen 1]`, discarding the live column `gen 3`. -/
theorem stale_failure_overwrites_sequence :
    (∀ c ∈ c4_s4.columns, c.id ≠ ColId.gen 2) ∧
    (handleStepClickFail c4_captured c4_s4).columns ≠ c4_s4.columns ∧
    c4_s4.columns.length = 3 ∧
    (handleStepClickFail c4_captured c4_s4).columns.length = 2 := by
  decide

/-- C4 amended: the failure branch restores the captured pre-request
sequence unconditionally — when the loading column is still the appended
last column this removes exactly that column (the pre-request shape), but
it performs no presence check, so even when the column was superseded the
current sequence is overwritten with the captured one (`handleAsk`'s
failure branch likewise always resets to `[root]`); the error is then
rethrown (App.tsx:147, App.tsx:204). -/
theorem failure_restores_captured_cols (captured : List ColumnData)
    (lc : ColumnData) (s sAny : AppState)
    (h : s.columns = captured ++ [lc]) :
    (handleStepClickFail captured s).columns = s.columns.dropLast ∧
    (handleStepClickFail captured sAny).columns = captured ∧
    (handleAskFail sAny).columns = [INITIAL_COLUMN] := by
  refine ⟨?_, rfl, rfl⟩
  show captured = s.columns.dropLast
  rw [h]
  simp

theorem failure_restores_captured_cols_witness :
    (handleStepClickFail c4_captured c4_s3).columns = c4_s3.columns.dropLast ∧
    (handleStepClickFail c4_captured c4_s4).columns = c4_captured ∧
    (handleAskFail c4_s4).columns = [INITIAL_COLUMN] :=
  failure_restores_captured_cols c4_captured
    (loadingStepCol 2 (ColId.gen 1) c4_stepA) c4_s3 c4_s4 (by decide)

/-- The C9 collision scenario: submit at `Date.now() = 7`, resolve, then
select a step while the clock still reads 7. -/
def c9_step : StepItem := ⟨⟨ColId.gen 7, 0⟩, "step one", "do it"⟩

def c9_s2 : AppState :=
  handleResolve (ColId.gen 7) [⟨"step one", "do it"⟩]
    (handleAskStart "plan" 7 initState)

/-- C9 counterexample: two distinct column-creation events in the same
millisecond — the initial submission at `t = 7` and a step selection at
`t = 7` — generate the same identity `col-7`, leaving the sequence with
duplicate identities. -/
theorem same_millisecond_id_collision :
    (handleStepClickStart (ColId.gen 7) c9_step 7 false c9_s2).columns.map
        (fun c => c.id) = [ColId.root, ColId.gen 7, ColId.gen 7] ∧
    ¬ ((handleStepClickStart (ColId.gen 7) c9_step 7 false c9_s2).columns.map
        (fun c => c.id)).Nodup := by
  decide

/-- C9 amended: a generated identity `col-${t}` never collides with the
root identity, and two creation events collide only when their `Date.now()`
timestamps coincide: creations at distinct timestamps always receive
distinct identities. -/
theorem creation_ids_distinct_of_ne_timestamp (t₁ t₂ : Nat) (h : t₁ ≠ t₂)
    (prompt : String) (columnId : ColId) (step : StepItem) :
    (loadingAskCol t₁ prompt).id ≠ (loadingAskCol t₂ prompt).id ∧
    (loadingStepCol t₁ columnId step).id ≠ (loadingStepCol t₂ columnId step).id ∧
    (loadingAskCol t₁ prompt).id ≠ (loadingStepCol t₂ columnId step).id ∧
    (loadingAskCol t₁ prompt).id ≠ INITIAL_COLUMN.id ∧
    (loadingStepCol t₁ columnId step).id ≠ INITIAL_COLUMN.id := by
  refine ⟨?_, ?_, ?_, ?_, ?_⟩ <;>
    simp only [loadingAskCol, loadingStepCol, INITIAL_COLUMN] <;>
    simp [h]

theorem creation_ids_distinct_of_ne_timestamp_witness :
    (1 : Nat) ≠ 2 ∧
    (loadingAskCol 1 "plan").id ≠ (loadingAskCol 2 "plan").id :=
  ⟨by decide,
   (creation_ids_distinct_of_ne_timestamp 1 2 (by decide) "plan" ColId.root
     ⟨⟨ColId.root, 0⟩, "a", "b"⟩).1⟩

/-- The state of the spec's clamping scenario: three columns, column 2
holding two steps, focus cursor `(2, 4)`.  (Reachable: navigate to step 4
of a five-step column 2, reselect a step in column 1 — which truncates and
appends a loading column while leaving the cursor untouched — and let the
new column resolve with two steps.) -/
def c7_colA : ColumnData :=
  { id := ColId.gen 1, parentId := some ColId.root, parentStepId := none,
    title := "plan", steps := [⟨⟨ColId.gen 1, 0⟩, "a", "b"⟩],
    isLoading := false, type := .list }

def c7_colB : ColumnData :=
  { id := ColId.gen 2, parentId := some (ColId.gen 1),
    parentStepId := some ⟨ColId.gen 1, 0⟩, title := "a",
    steps := [⟨⟨ColId.gen 2, 0⟩, "x", "y"⟩, ⟨⟨ColId.gen 2, 1⟩, "z", "w"⟩],
    isLoading := false, type := .list }

def c7_state : AppState :=
  { columns := [INITIAL_COLUMN, c7_colA, c7_colB],
    selectedStepIds := [(ColId.gen 1, ⟨ColId.gen 1, 0⟩)],
    mobileColIndex := 0, keyboardFocus := some ⟨2, 4⟩ }

/-- C7 (evaluation at the failing input): with three columns, column 2
holding only two steps, and cursor `(2, 4)`, no render or key event clamps
the cursor — the render passes `stepIndex = 4` through unchanged (it only
reads the cursor), `ArrowDown` keeps it at 4 and `ArrowUp` moves it to 3,
both still violating `stepIndex ≤ 1`. -/
theorem focus_cursor_never_clamped :
    c7_state.columns.length = 3 ∧
    (c7_state.columns[2]?.map fun c => c.steps.length) = some 2 ∧
    c7_state.keyboardFocus = some ⟨2, 4⟩ ∧
    focusedStepIndexAt c7_state 2 = some 4 ∧
    handleKeyDown c7_state.columns c7_state.keyboardFocus "ArrowDown" =
      .ok ⟨some ⟨2, 4⟩, none⟩ ∧
    handleKeyDown c7_state.columns c7_state.keyboardFocus "ArrowUp" =
      .ok ⟨some ⟨2, 3⟩, none⟩ ∧
    ¬ ((4 : Int) ≤ 1) := by
  decide

/-- C8 (evaluation at the failing input): the mobile index is driven to the
appended column's position on submission, but when the generation fails the
sequence shrinks back to `[root]` while `mobileColIndex` stays 1, and the
mobile render's dereference `columns[mobileColIndex]` falls past the end of
the sequence (JS `undefined`, crashing the `Column` component) — no clamp
is applied anywhere between the shrink and the dereference. -/
theorem mobile_index_unclamped_after_shrink :
    (handleAskStart "plan a party" 5 initState).mobileColIndex = 1 ∧
    (handleAskFail (handleAskStart "plan a party" 5 initState)).columns.length
      = 1 ∧
    (handleAskFail (handleAskStart "plan a party" 5 initState)).mobileColIndex
      = 1 ∧
    mobileColumn (handleAskFail (handleAskStart "plan a party" 5 initState))
      = none := by
  decide

/-- C6: the complete transition table of the keyboard cursor for events
received outside a text input, with the absent cursor read as `(0, -1)`:
ArrowRight moves to `(colIndex + 1, 0)` only below the last column;
ArrowLeft moves to `(colIndex - 1, -1 if the new column is 0 else 0)` only
when `colIndex > 0`; ArrowDown, only when `colIndex > 0`, increments
`stepIndex` exactly when it is below the last step index of that column;
ArrowUp, only when `colIndex > 0`, decrements `stepIndex` exactly when it
is above 0; Enter, when `colIndex > 0`, `stepIndex ≥ 0` and a step exists
there, fires the click `handleStepClick` receives and leaves the cursor
unchanged; any other key leaves the cursor unchanged. -/
theorem handleKeyDown_transition_spec (columns : List ColumnData)
    (prev : Option Focus) (current : Focus) (hne : columns ≠ [])
    (hcur : prev.getD ⟨0, -1⟩ = current) :
    (current.colIndex < columns.length - 1 →
      handleKeyDown columns prev "ArrowRight" =
        .ok ⟨some ⟨current.colIndex + 1, 0⟩, none⟩) ∧
    (columns.length - 1 ≤ current.colIndex →
      handleKeyDown columns prev "ArrowRight" = .ok ⟨some current, none⟩) ∧
    (0 < current.colIndex →
      handleKeyDown columns prev "ArrowLeft" =
        .ok ⟨some ⟨current.colIndex - 1,
               if current.colIndex - 1 = 0 then -1 else 0⟩, none⟩) ∧
    (current.colIndex = 0 →
      handleKeyDown columns prev "ArrowLeft" = .ok ⟨some current, none⟩) ∧
    (∀ col, columns[current.colIndex]? = some col → 0 < current.colIndex →
      (current.stepIndex < (col.steps.length : Int) - 1 →
        handleKeyDown columns prev "ArrowDown" =
          .ok ⟨some ⟨current.colIndex, current.stepIndex + 1⟩, none⟩) ∧
      ((col.steps.length : Int) - 1 ≤ current.stepIndex →
        handleKeyDown columns prev "ArrowDown" = .ok ⟨some current, none⟩)) ∧
    (current.colIndex = 0 →
      handleKeyDown columns prev "ArrowDown" = .ok ⟨some current, none⟩) ∧
    (0 < current.colIndex →
      (0 < current.stepIndex →
        handleKeyDown columns prev "ArrowUp" =
          .ok ⟨some ⟨current.colIndex, current.stepIndex - 1⟩, none⟩) ∧
      (current.stepIndex ≤ 0 →
        handleKeyDown columns prev "ArrowUp" = .ok ⟨some current, none⟩)) ∧
    (current.colIndex = 0 →
      handleKeyDown columns prev "ArrowUp" = .ok ⟨some current, none⟩) ∧
    (∀ col step, columns[current.colIndex]? = some col →
      col.steps[current.stepIndex.toNat]? = some step →
      0 < current.colIndex → 0 ≤ current.stepIndex →
      handleKeyDown columns prev "Enter" =
        .ok ⟨some current, some (col.id, step)⟩) ∧
    (∀ key, key ∉ (["ArrowRight", "ArrowLeft", "ArrowDown", "ArrowUp",
        "Enter"] : List String) →
      handleKeyDown columns prev key = .ok ⟨some current, none⟩) := by
  have hlen : ¬ columns.length = 0 := by
    intro h0
    exact hne (List.length_eq_zero.mp h0)
  subst hcur
  refine ⟨?_, ?_, ?_, ?_, ?_, ?_, ?_, ?_, ?_, ?_⟩
  · intro hlt
    simp only [handleKeyDown, if_true, if_neg hlen, if_pos rfl, if_pos hlt]
  · intro hge
    simp only [handleKeyDown, if_true, if_neg hlen, if_pos rfl,
      if_neg (by omega : ¬ (prev.getD ⟨0, -1⟩).colIndex < columns.length - 1)]
  · intro hpos
    simp only [handleKeyDown, if_true, if_neg hlen,
      if_neg (by decide : ¬ ("ArrowLeft" : String) = "ArrowRight"),
      if_pos rfl, if_pos hpos]
  · intro hz
    simp only [handleKeyDown, if_true, if_neg hlen,
      if_neg (by decide : ¬ ("ArrowLeft" : String) = "ArrowRight"),
      if_pos rfl, if_neg (by omega : ¬ 0 < (prev.getD ⟨0, -1⟩).colIndex)]
  · intro col hcol hpos
    constructor
    · intro hlt
      simp only [handleKeyDown, if_true, if_neg hlen,
        if_neg (by decide : ¬ ("ArrowDown" : String) = "ArrowRight"),
        if_neg (by decide : ¬ ("ArrowDown" : String) = "ArrowLeft"),
        if_pos rfl, if_pos hpos, hcol, if_pos hlt]
    · intro hge
      simp only [handleKeyDown, if_true, if_neg hlen,
        if_neg (by decide : ¬ ("ArrowDown" : String) = "ArrowRight"),
        if_neg (by decide : ¬ ("ArrowDown" : String) = "ArrowLeft"),
        if_pos rfl, if_pos hpos, hcol,
        if_neg (by omega :
          ¬ (prev.getD ⟨0, -1⟩).stepIndex < (col.steps.length : Int) - 1)]
  · intro hz
    simp only [handleKeyDown, if_true, if_neg hlen,
      if_neg (by decide : ¬ ("ArrowDown" : String) = "ArrowRight"),
      if_neg (by decide : ¬ ("ArrowDown" : String) = "ArrowLeft"),
      if_pos rfl, if_neg (by omega : ¬ 0 < (prev.getD ⟨0, -1⟩).colIndex)]
  · intro hpos
    constructor
    · intro hstep
      simp only [handleKeyDown, if_true, if_neg hlen,
        if_neg (by decide : ¬ ("ArrowUp" : String) = "ArrowRight"),
        if_neg (by decide : ¬ ("ArrowUp" : String) = "ArrowLeft"),
        if_neg (by decide : ¬ ("ArrowUp" : String) = "ArrowDown"),
        if_pos rfl, if_pos hpos, if_pos hstep]
    · intro hle
      simp only [handleKeyDown, if_true, if_neg hlen,
        if_neg (by decide : ¬ ("ArrowUp" : String) = "ArrowRight"),
        if_neg (by decide : ¬ ("ArrowUp" : String) = "ArrowLeft"),
        if_neg (by decide : ¬ ("ArrowUp" : String) = "ArrowDown"),
        if_pos rfl, if_pos hpos,
        if_neg (by omega : ¬ 0 < (prev.getD ⟨0, -1⟩).stepIndex)]
  · intro hz
    simp only [handleKeyDown, if_true, if_neg hlen,
      if_neg (by decide : ¬ ("ArrowUp" : String) = "ArrowRight"),
      if_neg (by decide : ¬ ("ArrowUp" : String) = "ArrowLeft"),
      if_neg (by decide : ¬ ("ArrowUp" : String) = "ArrowDown"),
      if_pos rfl, if_neg (by omega : ¬ 0 < (prev.getD ⟨0, -1⟩).colIndex)]
  · intro col step hcol hstep hpos hnn
    simp only [handleKeyDown, if_true, if_neg hlen,
      if_neg (by decide : ¬ ("Enter" : String) = "ArrowRight"),
      if_neg (by decide : ¬ ("Enter" : String) = "ArrowLeft"),
      if_neg (by decide : ¬ ("Enter" : String) = "ArrowDown"),
      if_neg (by decide : ¬ ("Enter" : String) = "ArrowUp"),
      if_pos rfl, if_pos (And.intro hpos hnn), hcol, hstep]
  · intro key hkey
    simp only [List.mem_cons, List.mem_singleton, not_or] at hkey
    obtain ⟨h1, h2, h3, h4, h5, _⟩ := hkey
    simp only [handleKeyDown, if_true, if_neg hlen, if_neg h1, if_neg h2, if_neg h3,
      if_neg h4, if_neg h5]

/-- A concrete two-column state for exercising the keyboard table: the
root plus a resolved two-step column, cursor on step 0 of column 1. -/
def w6_col : ColumnData :=
  { id := ColId.gen 1, parentId := some ColId.root, parentStepId := none,
    title := "plan", steps := [⟨⟨ColId.gen 1, 0⟩, "a", "b"⟩,
                               ⟨⟨ColId.gen 1, 1⟩, "c", "d"⟩],
    isLoading := false, type := .list }

def w6_columns : List ColumnData := [INITIAL_COLUMN, w6_col]

theorem handleKeyDown_transition_spec_witness :
    handleKeyDown w6_columns (some ⟨1, 0⟩) "ArrowDown" =
      .ok ⟨some ⟨1, 1⟩, none⟩ ∧
    handleKeyDown w6_columns (some ⟨1, 0⟩) "Enter" =
      .ok ⟨some ⟨1, 0⟩, some (w6_col.id, ⟨⟨ColId.gen 1, 0⟩, "a", "b"⟩)⟩ :=
  have h := handleKeyDown_transition_spec w6_columns (some ⟨1, 0⟩) ⟨1, 0⟩
    (by decide) rfl
  ⟨(h.2.2.2.2.1 w6_col (by decide) (by decide)).1 (by decide),
   h.2.2.2.2.2.2.2.2.1 w6_col ⟨⟨ColId.gen 1, 0⟩, "a", "b"⟩ (by decide)
     (by decide) (by decide) (by decide)⟩

end AISteps
